import Mathlib

/-!
Verification development for the document-cleaning pipeline.

The embedding below translates, from the repository sources:
  * shared/config.py          — the retry/delay/chunk-size constants,
  * shared/api_client.py      — FastAPIClient.clean_text and its single-request
                                helper _make_clean_text_request,
  * document_cleaner/clean_document.py — DocumentCleaner._clean_single_chunk,
                                _clean_chunks and _aggregate_chunks,
  * document_cleaner/text_splitter.py  — LangChainTextSplitter.__init__
                                configuration resolution.
The recursive separator-splitting algorithm itself lives in the third-party
LangChain RecursiveCharacterTextSplitter, whose source is not part of this
repository; it is modelled from the specification (marked below).

Network effects are shallowly embedded: the outcome of the i-th outbound HTTP
request (resp. the i-th call to the gateway) is supplied as a function
`Nat → RequestOutcome` (resp. `Nat → Except APIClientError String`), and each
operation returns a trace recording its result, how many attempts it made and
which backoff sleeps it performed.
-/

namespace DocClean

/-- Characters stripped by the Python str.strip used throughout the sources
(ASCII whitespace: space, tab, newline, carriage return, vertical tab, form feed). -/
def isPythonSpace (c : Char) : Bool :=
  c = ' ' || c = '\t' || c = '\n' || c = '\r' || c = Char.ofNat 11 || c = Char.ofNat 12

/-- Python str.strip on a character list: drop whitespace from both ends. -/
def pyStripList (l : List Char) : List Char :=
  ((l.dropWhile isPythonSpace).reverse.dropWhile isPythonSpace).reverse

/-- Python str.strip on a string. -/
def pyStrip (s : String) : String :=
  String.mk (pyStripList s.toList)

/-- The guard used by the sources for blank input: Python
`not text or not text.strip()` is equivalent to the stripped text being empty. -/
def isBlank (s : String) : Bool :=
  (pyStrip s).isEmpty

namespace Config

/-- Source: shared/config.py line 42, `DEFAULT_CHUNK_SIZE = 1500`. -/
def DEFAULT_CHUNK_SIZE : Nat := 1500

/-- Source: shared/config.py line 68, `MAX_RETRIES = 3`. -/
def MAX_RETRIES : Nat := 3

/-- Source: shared/config.py line 71, `RETRY_DELAY = 1` (seconds). -/
def RETRY_DELAY : Nat := 1

end Config

/-- Source: shared/api_client.py, class APIClientError. The diagnostic
`response_data` payload is omitted; `status_code` is `none` when the Python
value is `None`. -/
structure APIClientError where
  message : String
  status_code : Option Nat
deriving Repr, DecidableEq

/-- One outbound HTTP request, as observed by
`FastAPIClient._make_clean_text_request` (shared/api_client.py lines 164-246):
either a transport error (ConnectionError / Timeout / RequestException), an
HTTP error status raised by raise_for_status, a 2xx response whose body is not
JSON, a 2xx JSON response missing the cleaned_text field, or a successful
response carrying cleaned text. -/
inductive RequestOutcome where
  | connectionFailed (msg : String)
  | timedOut (msg : String)
  | httpStatus (status : Nat) (detail : String)
  | invalidJson (status : Nat) (msg : String)
  | missingCleanedText (status : Nat)
  | requestFailed (msg : String)
  | cleanedOk (text : String)
deriving Repr, DecidableEq

/-- Source: shared/api_client.py lines 164-246,
`FastAPIClient._make_clean_text_request`: maps one request outcome to either
the cleaned text or a raised APIClientError (transport errors carry no status
code; HTTP errors and malformed-body errors carry the response status). -/
def make_clean_text_request : RequestOutcome → Except APIClientError String
  | .cleanedOk t => .ok t
  | .connectionFailed m => .error ⟨"Cannot connect to FastAPI server: " ++ m, none⟩
  | .timedOut m => .error ⟨"Request timeout: " ++ m, none⟩
  | .httpStatus s d => .error ⟨"HTTP " ++ toString s ++ ": " ++ d, some s⟩
  | .invalidJson s m => .error ⟨"Invalid JSON response from server: " ++ m, some s⟩
  | .missingCleanedText s => .error ⟨"Missing cleaned_text field in API response", some s⟩
  | .requestFailed m => .error ⟨"Request failed: " ++ m, none⟩

/-- The break condition of the retry loop in clean_text
(shared/api_client.py line 148): `e.status_code and 400 <= e.status_code < 500`. -/
def isClientError (e : APIClientError) : Bool :=
  match e.status_code with
  | some s => decide (400 ≤ s ∧ s < 500)
  | none => false

deriving instance DecidableEq for Except

/-- Observable behaviour of one `clean_text` invocation: its result, how many
outbound requests it made, and the sleeps (in seconds) it performed. -/
structure CleanTextTrace where
  result : Except APIClientError String
  requestCount : Nat
  waits : List Nat
deriving Repr, DecidableEq

/-- The retry loop of `FastAPIClient.clean_text` (shared/api_client.py lines
140-162), runnning from attempt index `attempt` with `k` loop iterations left
(`k` starts at MAX_RETRIES + 1; the `k = 0` base corresponds to the final
`raise last_exception or APIClientError(...)` fallback when no iteration ran).
On a 4xx-class error the loop breaks and re-raises; otherwise it sleeps
`RETRY_DELAY * (attempt + 1)` and retries while attempts remain. -/
def cleanTextGo (reqs : Nat → RequestOutcome) (maxR : Nat) : Nat → Nat → CleanTextTrace
  | _, 0 => ⟨.error ⟨"All API attempts failed for unknown reason", none⟩, 0, []⟩
  | attempt, k + 1 =>
    match make_clean_text_request (reqs attempt) with
    | .ok t => ⟨.ok t, 1, []⟩
    | .error e =>
      if isClientError e then ⟨.error e, 1, []⟩
      else if attempt < maxR then
        let rest := cleanTextGo reqs maxR (attempt + 1) k
        ⟨rest.result, rest.requestCount + 1, Config.RETRY_DELAY * (attempt + 1) :: rest.waits⟩
      else ⟨.error e, 1, []⟩

/-- Source: shared/api_client.py lines 104-162, `FastAPIClient.clean_text`.
Blank input (lines 126-128) is returned unchanged with no request made;
otherwise the retry loop runs with Config.MAX_RETRIES. `reqs i` is the outcome
of the i-th outbound request of this invocation. -/
def clean_text (reqs : Nat → RequestOutcome) (text : String) : CleanTextTrace :=
  if isBlank text then ⟨.ok text, 0, []⟩
  else cleanTextGo reqs Config.MAX_RETRIES 0 (Config.MAX_RETRIES + 1)

/-- Base delay of the chunk processor backoff: the source computes
`delay = attempt * 1.0` seconds (clean_document.py line 236). -/
def baseDelay : Nat := 1

/-- Observable behaviour of one `_clean_single_chunk` invocation: its result,
how many gateway calls it made, and the backoff sleeps it performed. -/
structure SingleChunkTrace where
  result : Except APIClientError String
  callCount : Nat
  delays : List Nat
deriving Repr, DecidableEq

/-- The body of the try-block of `_clean_single_chunk` (clean_document.py
lines 241-246): a returned text that is empty after strip is converted into a
raised APIClientError ("API returned empty text"); any other returned text is
accepted; a raised error passes through. -/
def normalizeCall (r : Except APIClientError String) : Except APIClientError String :=
  match r with
  | .ok t => if (pyStrip t).isEmpty then .error ⟨"API returned empty text", none⟩ else .ok t
  | .error e => .error e

/-- The retry loop of `DocumentCleaner._clean_single_chunk` (clean_document.py
lines 230-254), running from attempt index `attempt` with `k` iterations left
(`k` starts at maxRetries + 1; the `k = 0` base corresponds to the trailing
`raise last_error`). Before every retry (attempt > 0) it sleeps
`attempt * baseDelay`; it catches every APIClientError alike and retries while
`attempt < maxRetries`. `calls i` is the result of the i-th `clean_text` call
of this invocation. -/
def cleanSingleChunkGo (calls : Nat → Except APIClientError String) (maxRetries : Nat) :
    Nat → Option APIClientError → Nat → SingleChunkTrace
  | _, lastError, 0 => ⟨.error (lastError.getD ⟨"", none⟩), 0, []⟩
  | attempt, _, k + 1 =>
    let d : List Nat := if 0 < attempt then [attempt * baseDelay] else []
    match normalizeCall (calls attempt) with
    | .ok t => ⟨.ok t, 1, d⟩
    | .error e =>
      if attempt < maxRetries then
        let rest := cleanSingleChunkGo calls maxRetries (attempt + 1) (some e) k
        ⟨rest.result, rest.callCount + 1, d ++ rest.delays⟩
      else ⟨.error e, 1, d⟩

/-- Source: clean_document.py lines 220-254, `DocumentCleaner._clean_single_chunk`. -/
def clean_single_chunk (calls : Nat → Except APIClientError String) (maxRetries : Nat) :
    SingleChunkTrace :=
  cleanSingleChunkGo calls maxRetries 0 none (maxRetries + 1)

/-- Boolean test for the error case of an Except value. -/
def isErrE {ε α : Type} : Except ε α → Bool
  | .error _ => true
  | .ok _ => false

/-- The per-chunk output chosen by the loop of `_clean_chunks`: the cleaned
text on success, the original chunk content as fallback on failure. -/
def outputOf (r : Except APIClientError String) (orig : String) : String :=
  match r with
  | .ok t => t
  | .error _ => orig

/-- State accumulated by the loop of `_clean_chunks`: the output list and the
successful / failed counters. -/
structure CleanChunksOut where
  cleaned_chunks : List String
  successful : Nat
  failed : Nat
deriving Repr, DecidableEq

/-- The loop of `DocumentCleaner._clean_chunks` (clean_document.py lines
188-209) from chunk index `i` on: every chunk is attempted, a success appends
the cleaned text and bumps `successful`, a failure appends the original chunk
content and bumps `failed`; the loop never aborts early. `results i` is the
outcome of `_clean_single_chunk` on the i-th chunk (the cleaned text, or the
APIClientError it raised). -/
def cleanChunksGo (results : Nat → Except APIClientError String) :
    Nat → List String → CleanChunksOut
  | _, [] => ⟨[], 0, 0⟩
  | i, c :: rest =>
    let out := cleanChunksGo results (i + 1) rest
    match results i with
    | .ok t => ⟨t :: out.cleaned_chunks, out.successful + 1, out.failed⟩
    | .error _ => ⟨c :: out.cleaned_chunks, out.successful, out.failed + 1⟩

/-- The chunk loop started at index 0. -/
def cleanChunksLoop (results : Nat → Except APIClientError String) (chunks : List String) :
    CleanChunksOut :=
  cleanChunksGo results 0 chunks

/-- Source: clean_document.py lines 178-218, `DocumentCleaner._clean_chunks`.
After the loop over all chunks, raises DocumentCleaningError ("Too many
cleaning failures") exactly when `failed > len(chunks) // 2`. -/
def clean_chunks (results : Nat → Except APIClientError String) (chunks : List String) :
    Except String (List String) :=
  let out := cleanChunksLoop results chunks
  if out.failed > chunks.length / 2 then
    .error ("Too many cleaning failures (" ++ toString out.failed ++ "/" ++
      toString chunks.length ++ "). Check if FastAPI server is running.")
  else
    .ok out.cleaned_chunks

/-- Source: clean_document.py line 271, `re.sub(r' +', ' ', aggregated)`:
each maximal run of space characters is replaced by a single space (regex
matching is greedy and resumes after the replacement). -/
def collapseSpaces : List Char → List Char
  | [] => []
  | c :: rest =>
    if c = ' ' then ' ' :: collapseSpaces (rest.dropWhile (fun x => x = ' '))
    else c :: collapseSpaces rest
termination_by l => l.length
decreasing_by
  · exact Nat.lt_succ_of_le (List.dropWhile_sublist _).length_le
  · exact Nat.lt_succ_self _

/-- Stated from the claim wording for comparison with `collapseSpaces`: every
run of two or more space characters is collapsed to one, a lone space is
copied unchanged. -/
def collapseTwoPlus : List Char → List Char
  | [] => []
  | [c] => [c]
  | c :: d :: rest =>
    if c = ' ' && d = ' ' then ' ' :: collapseTwoPlus (rest.dropWhile (fun x => x = ' '))
    else c :: collapseTwoPlus (d :: rest)
termination_by l => l.length
decreasing_by
  · exact Nat.lt_succ_of_le (Nat.le_succ_of_le (List.dropWhile_sublist _).length_le)
  · exact Nat.lt_succ_self _

/-- Source: clean_document.py line 272, `re.sub(r'\.([A-Z])', r'. \1', ...)`:
insert a space after a period immediately followed by an ASCII upper-case
letter; matching is non-overlapping, resuming after the inserted letter. -/
def insertSpaceAfterPeriod : List Char → List Char
  | [] => []
  | [c] => [c]
  | c :: d :: rest =>
    if c = '.' && d.isUpper then '.' :: ' ' :: d :: insertSpaceAfterPeriod rest
    else c :: insertSpaceAfterPeriod (d :: rest)
termination_by l => l.length
decreasing_by
  · exact Nat.lt_succ_of_le (Nat.le_succ_of_le (Nat.le_refl _))
  · exact Nat.lt_succ_self _

/-- Source: clean_document.py lines 256-274, `DocumentCleaner._aggregate_chunks`:
strip each chunk, discard those empty after strip, join with a single space,
collapse space runs, repair sentence spacing, strip the final result. -/
def aggregate_chunks (cleaned_chunks : List String) : String :=
  let aggregated := String.intercalate " " ((cleaned_chunks.map pyStrip).filter (fun s => !s.isEmpty))
  pyStrip (String.mk (insertSpaceAfterPeriod (collapseSpaces aggregated.toList)))

/-- Stated from the claim wording (C7), for comparison with `aggregate_chunks`:
texts trimmed, empties discarded, joined by a single space, runs of two or
more spaces collapsed to one, a space inserted after each period followed by
an upper-case letter, and the result trimmed. -/
def aggregateChunksSpec (cleaned_chunks : List String) : String :=
  let joined := String.intercalate " " ((cleaned_chunks.map pyStrip).filter (fun s => !s.isEmpty))
  pyStrip (String.mk (insertSpaceAfterPeriod (collapseTwoPlus joined.toList)))

/-- Modelled from the spec: the character-level hard cut of the Segmenter
(spec section 4.1, "fall back to a hard cut at exactly targetSize characters");
the real implementation is LangChain RecursiveCharacterTextSplitter, not part
of this repository. A span no longer than S is returned whole, otherwise the
first S characters are cut off and the remainder is cut again. -/
def hardCut (S : Nat) (span : List Char) : List (List Char) :=
  if hz : S = 0 then [span]
  else if hle : span.length ≤ S then [span]
  else span.take S :: hardCut S (span.drop S)
termination_by span.length
decreasing_by
  simp only [List.length_drop]
  omega

/-- Does the (non-empty) separator occur inside the span? -/
def occursIn (sep : List Char) : List Char → Bool
  | [] => false
  | c :: rest => sep.isPrefixOf (c :: rest) || occursIn sep rest

/-- Split a span at every occurrence of the (non-empty) separator, keeping the
separator attached to the end of the preceding piece so no characters are
lost. `acc` holds the reversed characters of the piece being built. -/
def splitKeepSepAux (sep : List Char) (acc : List Char) : List Char → List (List Char)
  | [] => [acc.reverse]
  | c :: rest =>
    if h : sep ≠ [] ∧ sep.isPrefixOf (c :: rest) then
      (acc.reverse ++ sep) :: splitKeepSepAux sep [] ((c :: rest).drop sep.length)
    else
      splitKeepSepAux sep (c :: acc) rest
termination_by span => span.length
decreasing_by
  · simp only [List.length_drop, List.length_cons]
    have hlen : 0 < sep.length := List.length_pos.mpr h.1
    omega
  · exact Nat.lt_succ_self _

/-- Modelled from the spec: split at occurrences of a separator keeping the
separator attached to the preceding piece (spec section 4.1 step 2). -/
def splitKeepSep (sep span : List Char) : List (List Char) :=
  splitKeepSepAux sep [] span

/-- Modelled from the spec: the recursive hierarchical splitting of the
Segmenter (spec section 4.1 step 2; the implementation delegates to LangChain
RecursiveCharacterTextSplitter, whose source is not in this repository). A
span within the target size is one piece; otherwise the first separator of the
priority list occurring in the span splits it, pieces still too long are
re-split with the remaining lower-priority separators; the empty-string
separator, or an exhausted separator list, means a character-level hard cut. -/
def splitRec : List (List Char) → Nat → List Char → List (List Char)
  | [], S, span =>
    if span.length ≤ S then [span] else hardCut S span
  | sep :: rest, S, span =>
    if span.length ≤ S then [span]
    else if sep.isEmpty then hardCut S span
    else if occursIn sep span then
      (splitKeepSep sep span).flatMap
        (fun piece => if piece.length ≤ S then [piece] else splitRec rest S piece)
    else splitRec rest S span
termination_by seps _ _ => seps.length
decreasing_by
  · exact Nat.lt_succ_self _
  · exact Nat.lt_succ_self _

/-- Modelled from the spec: greedy merge of adjacent short pieces up to the
target size (spec section 4.1 step 3, "merge adjacent short pieces"; the
overlap-carrying alternative it also offers is left unmodelled). `acc` is the
chunk being accumulated. -/
def mergeShortGo (S : Nat) (acc : List Char) : List (List Char) → List (List Char)
  | [] => [acc]
  | p :: rest =>
    if acc.length + p.length ≤ S then mergeShortGo S (acc ++ p) rest
    else acc :: mergeShortGo S p rest

/-- Merge pass over the produced pieces. -/
def mergeShort (S : Nat) : List (List Char) → List (List Char)
  | [] => []
  | p :: rest => mergeShortGo S p rest

/-- Modelled from the spec: the full Segmenter split, recursive splitting
followed by the merge of adjacent short pieces. -/
def splitSpec (seps : List (List Char)) (S : Nat) (text : List Char) : List (List Char) :=
  mergeShort S (splitRec seps S text)

/-- Source: text_splitter.py lines 106-116, the default separator hierarchy of
`LangChainTextSplitter.__init__`. -/
def default_separators : List (List Char) :=
  ["\n\n".toList, "\n".toList, ". ".toList, "! ".toList, "? ".toList,
   "; ".toList, ", ".toList, " ".toList, []]

/-- Python `requested or dflt` for an optional integer argument: None and 0
are falsy and replaced by the default (text_splitter.py lines 102-103). -/
def pyOrDefault (requested : Option Int) (dflt : Int) : Int :=
  match requested with
  | none => dflt
  | some n => if n = 0 then dflt else n

/-- The chunk-size and overlap a constructed splitter ends up with. -/
structure SplitterConfig where
  chunk_size : Int
  chunk_overlap : Int
deriving Repr, DecidableEq

/-- Modelled from the spec: the configuration validation of the delegated
splitter constructor (spec section 4.1, "targetSize must be at least some
minimum (e.g. 1); overlap must be at least 0 and less than targetSize, else
fails with InvalidConfiguration"); the delegate is the LangChain
RecursiveCharacterTextSplitter constructor, not part of this repository. -/
def validSplitterConfigSpec (size overlap : Int) : Bool :=
  1 ≤ size && 0 ≤ overlap && overlap < size

/-- Source: text_splitter.py lines 85-127, `LangChainTextSplitter.__init__`:
resolve chunk_size and chunk_overlap with Python falsy-or defaulting
(defaults DEFAULT_CHUNK_SIZE and DEFAULT_CHUNK_SIZE // 10), then delegate to
the splitter constructor, whose validation is modelled from the spec. -/
def langChainTextSplitterInit (chunk_size chunk_overlap : Option Int) :
    Except String SplitterConfig :=
  let size := pyOrDefault chunk_size (Config.DEFAULT_CHUNK_SIZE : Int)
  let overlap := pyOrDefault chunk_overlap ((Config.DEFAULT_CHUNK_SIZE : Int) / 10)
  if validSplitterConfigSpec size overlap then .ok ⟨size, overlap⟩
  else .error "InvalidConfiguration"

/-- Degeneracy of a requested configuration, in the words of claim C9:
targetSize below the minimum 1, or overlap negative, or overlap not strictly
below targetSize. -/
def isDegenerate (size overlap : Int) : Bool :=
  !(validSplitterConfigSpec size overlap)

/-! Concrete fixtures used by counterexamples and witnesses. -/

/-- A transport-level error with no status code. -/
def errBoom : APIClientError := ⟨"boom", none⟩

/-- The error raised for an HTTP 404 response. -/
def err404 : APIClientError := ⟨"HTTP 404: not found", some 404⟩

/-- A gateway that raises a transport error on every call. -/
def callsAlwaysFail : Nat → Except APIClientError String := fun _ => .error errBoom

/-- A gateway that raises a 404 client error on every call. -/
def callsAlways404 : Nat → Except APIClientError String := fun _ => .error err404

/-- A gateway that succeeds with the text "hi" on every call. -/
def callsOkHi : Nat → Except APIClientError String := fun _ => .ok "hi"

/-- Requests that time out on every attempt. -/
def reqsAlwaysTimeout : Nat → RequestOutcome := fun _ => .timedOut "t"

/-- Requests answered 404 on every attempt. -/
def reqsAlways404 : Nat → RequestOutcome := fun _ => .httpStatus 404 "not found"

/-- Requests answered 200 but with the cleaned_text field missing, on every
attempt. -/
def reqsAlwaysMalformed : Nat → RequestOutcome := fun _ => .missingCleanedText 200

/-- Requests that succeed on every attempt. -/
def reqsAlwaysOk : Nat → RequestOutcome := fun _ => .cleanedOk "clean"

/-- Ten chunks, for the threshold boundary scenario. -/
def chunks10 : List String :=
  ["c0", "c1", "c2", "c3", "c4", "c5", "c6", "c7", "c8", "c9"]

/-- Per-chunk outcomes where exactly the first five chunks fall back. -/
def resultsFail5 : Nat → Except APIClientError String :=
  fun i => if i < 5 then .error errBoom else .ok "clean"

/-- Per-chunk outcomes where exactly the first six chunks fall back. -/
def resultsFail6 : Nat → Except APIClientError String :=
  fun i => if i < 6 then .error errBoom else .ok "clean"

/-- A short sample text for the segmenter witness. -/
def sampleSegText : List Char :=
  "Paragraph one. Page 3. Paragraph two, continued.".toList

/-! Helper lemmas about the gateway retry loop. -/

/-- The gateway loop makes at most `k` requests in `k` remaining iterations. -/
lemma cleanTextGo_count_le (reqs : Nat → RequestOutcome) (maxR : Nat) :
    ∀ k attempt, (cleanTextGo reqs maxR attempt k).requestCount ≤ k := by
  intro k
  induction k with
  | zero => intro attempt; simp [cleanTextGo]
  | succ k ih =>
    intro attempt
    cases h : make_clean_text_request (reqs attempt) with
    | ok t => simp [cleanTextGo, h]
    | error e =>
      by_cases hc : isClientError e = true
      · simp [cleanTextGo, h, hc]
      · by_cases ha : attempt < maxR
        · have := ih (attempt + 1)
          simp [cleanTextGo, h, hc, ha]
          omega
        · simp [cleanTextGo, h, hc, ha]

/-- The gateway loop makes at least one request when an iteration remains. -/
lemma cleanTextGo_count_pos (reqs : Nat → RequestOutcome) (maxR : Nat) :
    ∀ k attempt, 1 ≤ (cleanTextGo reqs maxR attempt (k + 1)).requestCount := by
  intro k attempt
  cases h : make_clean_text_request (reqs attempt) with
  | ok t => simp [cleanTextGo, h]
  | error e =>
    by_cases hc : isClientError e = true
    · simp [cleanTextGo, h, hc]
    · by_cases ha : attempt < maxR
      · simp [cleanTextGo, h, hc, ha]
      · simp [cleanTextGo, h, hc, ha]

/-- A 4xx-class error stops the gateway loop at once: the error is re-raised
after a single request and no sleep. -/
lemma cleanTextGo_clientErrorStop (reqs : Nat → RequestOutcome) (maxR : Nat)
    (k attempt : Nat) (e : APIClientError)
    (h : make_clean_text_request (reqs attempt) = .error e)
    (hc : isClientError e = true) :
    cleanTextGo reqs maxR attempt (k + 1) = ⟨.error e, 1, []⟩ := by
  simp [cleanTextGo, h, hc]

/-- One step of the gateway loop: failure without 4xx, attempts remaining. -/
lemma cleanTextGo_err_retry (reqs : Nat → RequestOutcome) (maxR : Nat)
    (k attempt : Nat) (e : APIClientError)
    (h : make_clean_text_request (reqs attempt) = .error e)
    (hc : isClientError e = false) (ha : attempt < maxR) :
    cleanTextGo reqs maxR attempt (k + 1) =
      ⟨(cleanTextGo reqs maxR (attempt + 1) k).result,
       (cleanTextGo reqs maxR (attempt + 1) k).requestCount + 1,
       Config.RETRY_DELAY * (attempt + 1) :: (cleanTextGo reqs maxR (attempt + 1) k).waits⟩ := by
  simp [cleanTextGo, h, hc, ha]

/-- When every request fails without a 4xx status, the gateway loop uses all
remaining iterations and sleeps the progressive backoff before each retry. -/
lemma cleanTextGo_allFail (reqs : Nat → RequestOutcome) (maxR : Nat)
    (hfail : ∀ i, ∃ e, make_clean_text_request (reqs i) = .error e ∧ isClientError e = false) :
    ∀ k attempt, attempt + k = maxR + 1 →
      (cleanTextGo reqs maxR attempt k).requestCount = k ∧
      (cleanTextGo reqs maxR attempt k).waits =
        (List.range' (attempt + 1) (k - 1)).map (fun a => Config.RETRY_DELAY * a) := by
  intro k
  induction k with
  | zero => intro attempt _; simp [cleanTextGo]
  | succ k ih =>
    intro attempt hinv
    obtain ⟨e, he, hce⟩ := hfail attempt
    by_cases ha : attempt < maxR
    · have hk : 1 ≤ k := by omega
      obtain ⟨m, rfl⟩ : ∃ m, k = m + 1 := ⟨k - 1, by omega⟩
      have hrec := ih (attempt + 1) (by omega)
      rw [cleanTextGo_err_retry reqs maxR (m + 1) attempt e he hce ha]
      dsimp only
      refine ⟨by rw [hrec.1], ?_⟩
      rw [hrec.2]
      simp only [Nat.add_sub_cancel, List.range'_succ, List.map_cons]
    · have hk : k = 0 := by omega
      subst hk
      simp [cleanTextGo, he, hce, ha]

/-! Helper lemmas about the chunk-processor retry loop. -/

/-- The chunk retry loop makes at most `k` gateway calls in `k` remaining
iterations. -/
lemma cleanSingleChunkGo_count_le (calls : Nat → Except APIClientError String)
    (maxRetries : Nat) :
    ∀ k attempt lastE,
      (cleanSingleChunkGo calls maxRetries attempt lastE k).callCount ≤ k := by
  intro k
  induction k with
  | zero => intro attempt lastE; simp [cleanSingleChunkGo]
  | succ k ih =>
    intro attempt lastE
    cases h : normalizeCall (calls attempt) with
    | ok t => simp [cleanSingleChunkGo, h]
    | error e =>
      by_cases ha : attempt < maxRetries
      · have := ih (attempt + 1) (some e)
        simp [cleanSingleChunkGo, h, ha]
        omega
      · simp [cleanSingleChunkGo, h, ha]

/-- When every gateway call fails, the chunk retry loop from attempt index
`attempt ≥ 1` uses all remaining iterations and sleeps the linear backoff
before every attempt. -/
lemma cleanSingleChunkGo_allFail (calls : Nat → Except APIClientError String)
    (maxRetries : Nat)
    (hfail : ∀ i, ∃ e, normalizeCall (calls i) = .error e) :
    ∀ k attempt lastE, 1 ≤ attempt → attempt + k = maxRetries + 1 →
      (cleanSingleChunkGo calls maxRetries attempt lastE k).callCount = k ∧
      (cleanSingleChunkGo calls maxRetries attempt lastE k).delays =
        (List.range' attempt k).map (fun a => a * baseDelay) := by
  intro k
  induction k with
  | zero => intro attempt lastE _ _; simp [cleanSingleChunkGo]
  | succ k ih =>
    intro attempt lastE h1 hinv
    obtain ⟨e, he⟩ := hfail attempt
    by_cases ha : attempt < maxRetries
    · have hrec := ih (attempt + 1) (some e) (by omega) (by omega)
      have h0 : 0 < attempt := h1
      simp only [cleanSingleChunkGo, he, if_pos ha, if_pos h0]
      refine ⟨by rw [hrec.1], ?_⟩
      rw [hrec.2, List.range'_succ, List.map_cons]
      simp
    · have hk : k = 0 := by omega
      subst hk
      have h0 : 0 < attempt := h1
      simp [cleanSingleChunkGo, he, ha, h0, List.range']

/-- When every gateway call fails, `_clean_single_chunk` makes exactly
maxRetries + 1 calls with backoff delays 1, 2, ..., maxRetries (in baseDelay
units). -/
lemma clean_single_chunk_allFail (calls : Nat → Except APIClientError String)
    (maxRetries : Nat)
    (hfail : ∀ i, ∃ e, normalizeCall (calls i) = .error e) :
    (clean_single_chunk calls maxRetries).callCount = maxRetries + 1 ∧
    (clean_single_chunk calls maxRetries).delays =
      (List.range' 1 maxRetries).map (fun a => a * baseDelay) := by
  obtain ⟨e, he⟩ := hfail 0
  rcases Nat.eq_zero_or_pos maxRetries with h0 | hpos
  · subst h0
    simp [clean_single_chunk, cleanSingleChunkGo, he, List.range']
  · have hrec := cleanSingleChunkGo_allFail calls maxRetries hfail maxRetries 1 (some e)
      (le_refl 1) (by omega)
    have hlt : 0 < maxRetries := hpos
    simp only [clean_single_chunk, cleanSingleChunkGo, he, if_pos hlt,
      Nat.lt_irrefl, if_neg (by omega : ¬ 0 < 0)]
    constructor
    · rw [hrec.1]
    · rw [hrec.2]
      simp

/-- Normalizing a gateway response twice is the same as normalizing it once. -/
lemma normalizeCall_idem (r : Except APIClientError String) :
    normalizeCall (normalizeCall r) = normalizeCall r := by
  cases r with
  | error e => rfl
  | ok t =>
    by_cases h : (pyStrip t).isEmpty <;> simp [normalizeCall, h]

/-- A normalized response is a success only for text non-blank after strip. -/
lemma normalizeCall_ok_not_blank (r : Except APIClientError String) (t : String)
    (h : normalizeCall r = .ok t) : (pyStrip t).isEmpty = false := by
  cases r with
  | error e => simp [normalizeCall] at h
  | ok t0 =>
    by_cases hb : (pyStrip t0).isEmpty
    · simp [normalizeCall, hb] at h
    · simp [normalizeCall, hb] at h
      subst h
      simpa using hb

/-- The chunk retry loop observes its gateway responses only through
`normalizeCall`: pre-normalizing every response leaves the trace unchanged. -/
lemma cleanSingleChunkGo_norm (calls : Nat → Except APIClientError String)
    (maxRetries : Nat) :
    ∀ k attempt lastE,
      cleanSingleChunkGo calls maxRetries attempt lastE k =
        cleanSingleChunkGo (fun i => normalizeCall (calls i)) maxRetries attempt lastE k := by
  intro k
  induction k with
  | zero => intro attempt lastE; simp [cleanSingleChunkGo]
  | succ k ih =>
    intro attempt lastE
    cases h : normalizeCall (calls attempt) with
    | ok t =>
      have hb := normalizeCall_ok_not_blank _ _ h
      have h3 : normalizeCall (Except.ok t) = Except.ok t := by simp [normalizeCall, hb]
      simp [cleanSingleChunkGo, h, h3]
    | error e =>
      have h3 : normalizeCall (Except.error e) =
          (Except.error e : Except APIClientError String) := rfl
      by_cases ha : attempt < maxRetries
      · simp [cleanSingleChunkGo, h, h3, ha, ih]
      · simp [cleanSingleChunkGo, h, h3, ha]

/-- If the chunk retry loop returns a success, its text is non-blank. -/
lemma cleanSingleChunkGo_ok_not_blank (calls : Nat → Except APIClientError String)
    (maxRetries : Nat) :
    ∀ k attempt lastE t,
      (cleanSingleChunkGo calls maxRetries attempt lastE k).result = .ok t →
      (pyStrip t).isEmpty = false := by
  intro k
  induction k with
  | zero => intro attempt lastE t h; simp [cleanSingleChunkGo] at h
  | succ k ih =>
    intro attempt lastE t h
    cases hc : normalizeCall (calls attempt) with
    | ok t0 =>
      simp [cleanSingleChunkGo, hc] at h
      subst h
      exact normalizeCall_ok_not_blank _ _ hc
    | error e =>
      by_cases ha : attempt < maxRetries
      · simp [cleanSingleChunkGo, hc, ha] at h
        exact ih (attempt + 1) (some e) t h
      · simp [cleanSingleChunkGo, hc, ha] at h

/-! Helper lemmas about the chunk loop of _clean_chunks. -/

/-- The loop of `_clean_chunks` from index `i`: one output per input chunk, in
input order — the cleaned text on success, the original content on failure —
and the two counters sum to the chunk count. -/
lemma cleanChunksGo_spec (results : Nat → Except APIClientError String) :
    ∀ (chunks : List String) (i : Nat),
      (cleanChunksGo results i chunks).cleaned_chunks =
        (chunks.enumFrom i).map (fun p => outputOf (results p.1) p.2) ∧
      (cleanChunksGo results i chunks).successful +
        (cleanChunksGo results i chunks).failed = chunks.length := by
  intro chunks
  induction chunks with
  | nil => intro i; simp [cleanChunksGo]
  | cons c rest ih =>
    intro i
    have hrec := ih (i + 1)
    cases h : results i with
    | ok t =>
      refine ⟨?_, ?_⟩
      · simp [cleanChunksGo, h, List.enumFrom, outputOf, hrec.1]
      · have := hrec.2
        simp only [cleanChunksGo, h, List.length_cons]
        omega
    | error e =>
      refine ⟨?_, ?_⟩
      · simp [cleanChunksGo, h, List.enumFrom, outputOf, hrec.1]
      · have := hrec.2
        simp only [cleanChunksGo, h, List.length_cons]
        omega

/-- Collapsing every maximal run of spaces (the source regex, one-or-more)
agrees with collapsing only runs of two or more (the claim wording): a lone
space maps to itself either way. -/
lemma collapseSpaces_eq_collapseTwoPlus :
    ∀ l : List Char, collapseSpaces l = collapseTwoPlus l
  | [] => by simp [collapseSpaces, collapseTwoPlus]
  | [c] => by
    by_cases hc : c = ' ' <;>
      simp [collapseSpaces, collapseTwoPlus, hc, List.dropWhile_nil]
  | c :: d :: rest => by
    by_cases hc : c = ' '
    · by_cases hd : d = ' '
      · subst hc
        subst hd
        have hrec := collapseSpaces_eq_collapseTwoPlus (rest.dropWhile (fun x => x = ' '))
        simp [collapseSpaces, collapseTwoPlus, List.dropWhile_cons, hrec]
      · subst hc
        have hrec := collapseSpaces_eq_collapseTwoPlus (d :: rest)
        simp [collapseSpaces, collapseTwoPlus, List.dropWhile_cons, hd, hrec]
    · have hrec := collapseSpaces_eq_collapseTwoPlus (d :: rest)
      simp [collapseSpaces, collapseTwoPlus, hc, hrec]
termination_by l => l.length
decreasing_by
  · simp only [List.length_cons]
    have := (List.dropWhile_sublist (l := rest) (fun x : Char => x = ' ')).length_le
    omega
  · simp only [List.length_cons]
    omega
  · simp only [List.length_cons]
    omega

/-- Every piece of a hard cut at S is at most S characters long (S ≥ 1). -/
lemma hardCut_bound (S : Nat) (hS : 1 ≤ S) (span : List Char) :
    ∀ p ∈ hardCut S span, p.length ≤ S := by
  intro p hp
  rw [hardCut] at hp
  rw [dif_neg (by omega : ¬ S = 0)] at hp
  by_cases hle : span.length ≤ S
  · rw [dif_pos hle] at hp
    simp only [List.mem_singleton] at hp
    subst hp
    exact hle
  · rw [dif_neg hle] at hp
    rcases List.mem_cons.mp hp with rfl | hp2
    · simp only [List.length_take]
      omega
    · exact hardCut_bound S hS (span.drop S) p hp2
termination_by span.length
decreasing_by
  simp only [List.length_drop]
  omega

/-- Every piece produced by the recursive hierarchical split is at most S
characters long (S ≥ 1): pieces within the bound are returned as they are,
everything else ends in a lower-priority separator or the hard cut. -/
lemma splitRec_bound (S : Nat) (hS : 1 ≤ S) :
    ∀ (seps : List (List Char)) (span : List Char),
      ∀ p ∈ splitRec seps S span, p.length ≤ S := by
  intro seps
  induction seps with
  | nil =>
    intro span p hp
    rw [splitRec] at hp
    by_cases h : span.length ≤ S
    · rw [if_pos h] at hp
      simp only [List.mem_singleton] at hp
      subst hp
      exact h
    · rw [if_neg h] at hp
      exact hardCut_bound S hS span p hp
  | cons sep rest ih =>
    intro span p hp
    rw [splitRec] at hp
    by_cases h1 : span.length ≤ S
    · rw [if_pos h1] at hp
      simp only [List.mem_singleton] at hp
      subst hp
      exact h1
    · rw [if_neg h1] at hp
      by_cases h2 : sep.isEmpty = true
      · rw [if_pos h2] at hp
        exact hardCut_bound S hS span p hp
      · rw [if_neg h2] at hp
        by_cases h3 : occursIn sep span = true
        · rw [if_pos h3] at hp
          rw [List.mem_flatMap] at hp
          obtain ⟨piece, hmem, hp2⟩ := hp
          by_cases h4 : piece.length ≤ S
          · rw [if_pos h4] at hp2
            simp only [List.mem_singleton] at hp2
            subst hp2
            exact h4
          · rw [if_neg h4] at hp2
            exact ih piece p hp2
        · rw [if_neg h3] at hp
          exact ih span p hp

/-- The greedy merge of size-bounded pieces produces size-bounded chunks. -/
lemma mergeShortGo_bound (S : Nat) :
    ∀ (pieces : List (List Char)) (acc : List Char),
      acc.length ≤ S → (∀ p ∈ pieces, p.length ≤ S) →
      ∀ q ∈ mergeShortGo S acc pieces, q.length ≤ S := by
  intro pieces
  induction pieces with
  | nil =>
    intro acc hacc _ q hq
    simp only [mergeShortGo, List.mem_singleton] at hq
    subst hq
    exact hacc
  | cons p rest ih =>
    intro acc hacc hall q hq
    rw [mergeShortGo] at hq
    by_cases h : acc.length + p.length ≤ S
    · rw [if_pos h] at hq
      refine ih (acc ++ p) ?_ (fun r hr => hall r (List.mem_cons_of_mem _ hr)) q hq
      simp only [List.length_append]
      omega
    · rw [if_neg h] at hq
      rcases List.mem_cons.mp hq with rfl | hq2
      · exact hacc
      · exact ih p (hall p (List.mem_cons_self p rest)) (fun r hr => hall r (List.mem_cons_of_mem _ hr)) q hq2

/-! Claim theorems. -/

/-- C1: _clean_chunks raises TooManyFailures if and only if, after every chunk
has been attempted (the loop always yields one output per input chunk, so the
check is never short-circuited), the number of fallbacks strictly exceeds
totalChunks / 2 under integer floor division; in particular with 10 chunks a
run with exactly 5 fallbacks succeeds and a run with 6 fallbacks fails. -/
theorem clean_chunks_threshold_iff :
    (∀ (results : Nat → Except APIClientError String) (chunks : List String),
        (isErrE (clean_chunks results chunks) = true ↔
          chunks.length / 2 < (cleanChunksLoop results chunks).failed) ∧
        (cleanChunksLoop results chunks).cleaned_chunks.length = chunks.length) ∧
    isErrE (clean_chunks resultsFail5 chunks10) = false ∧
    isErrE (clean_chunks resultsFail6 chunks10) = true := by
  refine ⟨?_, by decide, by decide⟩
  intro results chunks
  constructor
  · by_cases h : chunks.length / 2 < (cleanChunksLoop results chunks).failed <;>
      simp [clean_chunks, h, isErrE]
  · have h := (cleanChunksGo_spec results chunks 0).1
    rw [cleanChunksLoop, h]
    simp

/-- C2: for every chunk and every maxRetries, _clean_single_chunk calls the
gateway at most 1 + maxRetries times; when the gateway fails on every call the
chunk is attempted exactly 1 + maxRetries times, sleeping
attemptIndex * baseDelay before each retry (attemptIndex = 1, ..., maxRetries)
before the fallback error is re-raised. -/
theorem clean_single_chunk_retry_budget :
    ∀ (calls : Nat → Except APIClientError String) (maxRetries : Nat),
      (clean_single_chunk calls maxRetries).callCount ≤ maxRetries + 1 ∧
      ((∀ i, isErrE (calls i) = true) →
        (clean_single_chunk calls maxRetries).callCount = maxRetries + 1 ∧
        (clean_single_chunk calls maxRetries).delays =
          (List.range' 1 maxRetries).map (fun a => a * baseDelay)) := by
  intro calls maxRetries
  refine ⟨cleanSingleChunkGo_count_le calls maxRetries (maxRetries + 1) 0 none, ?_⟩
  intro hfail
  have hfail2 : ∀ i, ∃ e, normalizeCall (calls i) = .error e := by
    intro i
    cases h : calls i with
    | error e => exact ⟨e, by simp [normalizeCall, h]⟩
    | ok t =>
      have h2 := hfail i
      rw [h] at h2
      simp [isErrE] at h2
  exact clean_single_chunk_allFail calls maxRetries hfail2

/-- Witness for C2 at a gateway that always fails with maxRetries = 3: exactly
4 calls, with backoff sleeps 1, 2, 3 seconds. -/
theorem clean_single_chunk_retry_budget_witness :
    (clean_single_chunk callsAlwaysFail 3).callCount = 3 + 1 ∧
    (clean_single_chunk callsAlwaysFail 3).delays =
      (List.range' 1 3).map (fun a => a * baseDelay) :=
  (clean_single_chunk_retry_budget callsAlwaysFail 3).2 (fun i => rfl)

/-- C3 counterexample: the claim says one clean_text call performs exactly one
outbound request; with requests timing out on every attempt, one call on the
text "hello" performs 4 outbound requests, not 1. -/
theorem clean_text_not_single_attempt :
    (clean_text reqsAlwaysTimeout "hello").requestCount = 4 ∧
    ¬ (clean_text reqsAlwaysTimeout "hello").requestCount = 1 := by decide

/-- C3 (amended): the Gateway contains retry logic of its own — a call on a
non-blank text performs between 1 and Config.MAX_RETRIES + 1 = 4 outbound
requests, and when every request fails without a 4xx status it performs all 4,
sleeping the progressive backoff RETRY_DELAY * attemptIndex before each retry,
before the typed failure is raised. -/
theorem clean_text_gateway_retry_budget :
    ∀ (reqs : Nat → RequestOutcome) (text : String), isBlank text = false →
      1 ≤ (clean_text reqs text).requestCount ∧
      (clean_text reqs text).requestCount ≤ Config.MAX_RETRIES + 1 ∧
      ((∀ i, ∃ e, make_clean_text_request (reqs i) = .error e ∧ isClientError e = false) →
        (clean_text reqs text).requestCount = Config.MAX_RETRIES + 1 ∧
        (clean_text reqs text).waits =
          (List.range' 1 Config.MAX_RETRIES).map (fun a => Config.RETRY_DELAY * a)) := by
  intro reqs text hb
  rw [clean_text, if_neg (by simp [hb])]
  refine ⟨cleanTextGo_count_pos reqs Config.MAX_RETRIES Config.MAX_RETRIES 0,
    cleanTextGo_count_le reqs Config.MAX_RETRIES (Config.MAX_RETRIES + 1) 0, ?_⟩
  intro hfail
  have h := cleanTextGo_allFail reqs Config.MAX_RETRIES hfail (Config.MAX_RETRIES + 1) 0
    (by omega)
  simpa using h

/-- Witness for C3 (amended) at always-timing-out requests and text "hello". -/
theorem clean_text_gateway_retry_budget_witness :
    (clean_text reqsAlwaysTimeout "hello").requestCount = Config.MAX_RETRIES + 1 ∧
    (clean_text reqsAlwaysTimeout "hello").waits =
      (List.range' 1 Config.MAX_RETRIES).map (fun a => Config.RETRY_DELAY * a) :=
  (clean_text_gateway_retry_budget reqsAlwaysTimeout "hello" (by decide)).2.2
    (fun i => ⟨⟨"Request timeout: t", none⟩, rfl, rfl⟩)

/-- C4: the chunk loop yields exactly one output per input chunk, in input
order — the cleaned text for a success, the original chunk content unchanged
for a failure — the successful and fallback counts sum to the total, and when
the gateway fails on every chunk the outputs are exactly the original
chunks. -/
theorem clean_chunks_one_output_per_chunk :
    ∀ (results : Nat → Except APIClientError String) (chunks : List String),
      (cleanChunksLoop results chunks).cleaned_chunks =
        (chunks.enumFrom 0).map (fun p => outputOf (results p.1) p.2) ∧
      (cleanChunksLoop results chunks).successful +
        (cleanChunksLoop results chunks).failed = chunks.length ∧
      ((∀ i, isErrE (results i) = true) →
        (cleanChunksLoop results chunks).cleaned_chunks = chunks) := by
  intro results chunks
  have h := cleanChunksGo_spec results chunks 0
  refine ⟨h.1, h.2, ?_⟩
  intro hfail
  show (cleanChunksGo results 0 chunks).cleaned_chunks = chunks
  rw [h.1]
  have hcong : ∀ p ∈ chunks.enumFrom 0, outputOf (results p.1) p.2 = p.2 := by
    intro p hp
    cases hr : results p.1 with
    | ok t =>
      have h2 := hfail p.1
      rw [hr] at h2
      simp [isErrE] at h2
    | error e => simp [outputOf, hr]
  rw [List.map_congr_left hcong]
  exact List.enumFrom_map_snd 0 chunks

/-- Witness for C4 at a gateway failing permanently on every chunk: each of
the three chunks falls back to its original content. -/
theorem clean_chunks_one_output_per_chunk_witness :
    (cleanChunksLoop callsAlwaysFail ["a", "b", "c"]).cleaned_chunks = ["a", "b", "c"] :=
  (clean_chunks_one_output_per_chunk callsAlwaysFail ["a", "b", "c"]).2.2 (fun i => rfl)

/-- C5 counterexample: the claim says a permanently failing chunk falls back
immediately with no further attempts or waits; with the gateway raising an
HTTP 404 client error on every call and maxRetries = 3, the chunk processor
makes 4 calls and sleeps 1, 2 and 3 seconds. -/
theorem permanent_failure_retried_counterexample :
    (clean_single_chunk callsAlways404 3).callCount = 4 ∧
    (clean_single_chunk callsAlways404 3).delays = [1, 2, 3] := by decide

/-- C5 (amended): the Gateway itself does not retry a 4xx-class failure — its
loop stops after the single request with no sleep and re-raises — but the
chunk processor does not distinguish permanent from transient failures: it
retries any APIClientError, a 4xx error included, up to maxRetries times with
linear backoff before falling back; and a structurally malformed 2xx response
(missing cleaned_text) is retried even by the Gateway, because its recorded
status code is not in the 4xx range. -/
theorem permanent_failure_handling :
    (∀ (reqs : Nat → RequestOutcome) (text : String) (e : APIClientError),
        isBlank text = false → make_clean_text_request (reqs 0) = .error e →
        isClientError e = true →
        clean_text reqs text = ⟨.error e, 1, []⟩) ∧
    (∀ (maxRetries : Nat) (e : APIClientError), isClientError e = true →
        (clean_single_chunk (fun _ => .error e) maxRetries).callCount = maxRetries + 1 ∧
        (clean_single_chunk (fun _ => .error e) maxRetries).delays =
          (List.range' 1 maxRetries).map (fun a => a * baseDelay)) ∧
    (clean_text reqsAlwaysMalformed "hello").requestCount = Config.MAX_RETRIES + 1 := by
  refine ⟨?_, ?_, by decide⟩
  · intro reqs text e hb h0 hc
    rw [clean_text, if_neg (by simp [hb])]
    exact cleanTextGo_clientErrorStop reqs Config.MAX_RETRIES Config.MAX_RETRIES 0 e h0 hc
  · intro maxRetries e _
    exact clean_single_chunk_allFail (fun _ => .error e) maxRetries (fun i => ⟨e, rfl⟩)

/-- Witness for C5 (amended): a 404 on the first request stops the Gateway
after one request, while the chunk processor retries the same 404 error 3
times (4 calls in total). -/
theorem permanent_failure_handling_witness :
    clean_text reqsAlways404 "hello" = ⟨.error err404, 1, []⟩ ∧
    (clean_single_chunk callsAlways404 3).callCount = 3 + 1 :=
  ⟨permanent_failure_handling.1 reqsAlways404 "hello" err404 (by decide) (by decide) (by decide),
   (permanent_failure_handling.2.1 3 err404 (by decide)).1⟩

/-- C6: the chunk processor never accepts an empty-after-trim cleaned text as
a success, and it observes gateway responses only through the normalization
that turns a blank success into the raised APIClientError — so a blank
response triggers exactly the same retry-then-fallback handling as a gateway
failure (the whole trace is unchanged under that replacement). -/
theorem empty_cleaned_text_rejected :
    ∀ (calls : Nat → Except APIClientError String) (maxRetries : Nat),
      (∀ t, (clean_single_chunk calls maxRetries).result = .ok t →
        (pyStrip t).isEmpty = false) ∧
      clean_single_chunk calls maxRetries =
        clean_single_chunk (fun i => normalizeCall (calls i)) maxRetries := by
  intro calls maxRetries
  refine ⟨?_, cleanSingleChunkGo_norm calls maxRetries (maxRetries + 1) 0 none⟩
  intro t h
  exact cleanSingleChunkGo_ok_not_blank calls maxRetries (maxRetries + 1) 0 none t h

/-- Witness for C6 at a gateway returning "hi". -/
theorem empty_cleaned_text_rejected_witness :
    (pyStrip "hi").isEmpty = false ∧
    clean_single_chunk callsOkHi 0 =
      clean_single_chunk (fun i => normalizeCall (callsOkHi i)) 0 :=
  ⟨(empty_cleaned_text_rejected callsOkHi 0).1 "hi" (by decide),
   (empty_cleaned_text_rejected callsOkHi 0).2⟩

/-- C7: _aggregate_chunks computes exactly what the claim describes — trim,
discard empties, join with a single space, collapse runs of two or more spaces
to one, insert a space after every period immediately followed by an
upper-case letter, and trim the result. -/
theorem aggregate_chunks_matches_spec :
    ∀ cleaned_chunks : List String,
      aggregate_chunks cleaned_chunks = aggregateChunksSpec cleaned_chunks := by
  intro cs
  simp [aggregate_chunks, aggregateChunksSpec, collapseSpaces_eq_collapseTwoPlus]

/-- C8: every chunk produced by the Segmenter split (recursive hierarchical
splitting with the mandatory character-level hard cut, followed by the merge
of adjacent short pieces) is at most targetSize characters long, for any
separator hierarchy and any targetSize of at least 1. -/
theorem segmenter_size_bound :
    ∀ (seps : List (List Char)) (S : Nat) (text : List Char), 1 ≤ S →
      (splitSpec seps S text).all (fun p => p.length ≤ S) = true := by
  intro seps S text hS
  rw [List.all_eq_true]
  intro p hp
  rw [decide_eq_true_eq]
  have hbound := splitRec_bound S hS seps text
  rw [splitSpec] at hp
  cases hsplit : splitRec seps S text with
  | nil =>
    rw [hsplit] at hp
    simp [mergeShort] at hp
  | cons q rest =>
    rw [hsplit] at hp
    rw [hsplit] at hbound
    simp only [mergeShort] at hp
    exact mergeShortGo_bound S rest q (hbound q (List.mem_cons_self q rest))
      (fun r hr => hbound r (List.mem_cons_of_mem _ hr)) p hp

/-- Witness for C8: the default separator hierarchy at targetSize 8 on a
sample text produces only pieces of at most 8 characters. -/
theorem segmenter_size_bound_witness :
    (splitSpec default_separators 8 sampleSegText).all (fun p => p.length ≤ 8) = true :=
  segmenter_size_bound default_separators 8 sampleSegText (by decide)

/-- C9 counterexample: the claim says every degenerate configuration is
rejected with InvalidConfiguration; requesting chunk_size 0 (below the
minimum 1, hence degenerate) succeeds instead, because Python falsy-or
defaulting silently replaces 0 by the default 1500 before any validation. -/
theorem splitter_init_degenerate_counterexample :
    isDegenerate 0 10 = true ∧
    langChainTextSplitterInit (some 0) (some 10) = .ok ⟨1500, 10⟩ := by decide

/-- C9 (amended): a requested value of 0 is Python-falsy and silently replaced
by the default rather than rejected; for requested values that survive the
defaulting unchanged (both nonzero), construction fails with
InvalidConfiguration exactly when the configuration is degenerate (validation
modelled from the spec, since the delegated constructor is third-party). -/
theorem splitter_init_validation :
    ∀ (size overlap : Int), size ≠ 0 → overlap ≠ 0 →
      (isErrE (langChainTextSplitterInit (some size) (some overlap)) = true ↔
        isDegenerate size overlap = true) := by
  intro size overlap hs ho
  simp only [langChainTextSplitterInit, pyOrDefault, if_neg hs, if_neg ho, isDegenerate]
  cases hv : validSplitterConfigSpec size overlap with
  | true => simp [hv, isErrE]
  | false => simp [hv, isErrE]

/-- Witness for C9 (amended): overlap equal to targetSize is degenerate and is
rejected. -/
theorem splitter_init_validation_witness :
    isErrE (langChainTextSplitterInit (some 1500) (some 1500)) = true :=
  (splitter_init_validation 1500 1500 (by decide) (by decide)).mpr (by decide)

/-- C10: for blank input text (empty or all-whitespace), clean_text returns
the input unchanged as a success, performing no outbound request and no
sleep. -/
theorem clean_text_blank_short_circuit :
    ∀ (reqs : Nat → RequestOutcome) (text : String), isBlank text = true →
      clean_text reqs text = ⟨.ok text, 0, []⟩ := by
  intro reqs text hb
  rw [clean_text, if_pos hb]

/-- Witness for C10 at a whitespace-only text. -/
theorem clean_text_blank_short_circuit_witness :
    clean_text reqsAlwaysOk " \t " = ⟨.ok " \t ", 0, []⟩ :=
  clean_text_blank_short_circuit reqsAlwaysOk " \t " (by decide)

end DocClean
